import Mathlib

/-!
# isula-transform: `pkg/isulad/internal/isuladimg/isuladimg.c`

A shallow embedding of the two adapter functions `init_isulad_image_module` and
`isulad_img_prepare_rootfs`, together with `util_strdup_s`.

Memory model.  A `char *` is a `Ptr`: `none` is `NULL`, `some a` is the address of a block.
The heap maps addresses to NUL-terminated strings; a block that was released reads as `none`.
Allocation is a bump allocator (a new block gets the address `heap.length`, an address that was
never handed out before), and whether the `k`-th allocation request of the process succeeds is
decided by an oracle `alloc_ok : Nat → Bool`.

A run either returns, ends in `abort()`, or reaches undefined behaviour (a load or store through a
pointer that does not designate a valid object).  The world carries the heap, the number of
allocation requests made so far and the trace of calls into the image-management library.
-/

namespace IsuladImg

/-- Address of a heap block. -/
abbrev Addr := Nat

/-- A C pointer: `none` is `NULL`. -/
abbrev Ptr := Option Addr

/-- The heap: the string stored in the block at each address, `none` once released. -/
abbrev Heap := List (Option String)

/-- Width of `size_t` in bits. -/
def SIZE_BITS : Nat := 64

/-- Value of `sizeof(char *)`. -/
def sizeof_char_ptr : Nat := 8

/-- The string a live block holds; `none` when `a` designates no live block. -/
def heap_read (h : Heap) (a : Addr) : Option String := h[a]?.join

/-- Effect of libc `free(p)` on the heap; `free(NULL)` does nothing. -/
def heap_release (h : Heap) (p : Ptr) : Heap :=
  match p with
  | none => h
  | some a => h.set a none

/-- Overwriting the string held by the block at `a` (a caller changing its own buffer). -/
def heap_store (h : Heap) (a : Addr) (s : String) : Heap := h.set a (some s)

/-- The fields of `isulad_daemon_configs` (declared in `<isulad/image_api.h>`) that
`init_isulad_image_module` assigns.  `storage_opts` is a `char **`: `none` is `NULL`, `some a` is a
block of `a.length` pointer slots. -/
structure isulad_daemon_configs where
  graph : Ptr
  state : Ptr
  storage_driver : Ptr
  storage_opts : Option (List Ptr)
  storage_opts_len : Nat
  image_layer_check : Bool
deriving DecidableEq

/-- The fields of `im_prepare_request` (declared in `<isulad/image_api.h>`) that
`isulad_img_prepare_rootfs` assigns. -/
structure im_prepare_request where
  container_id : Ptr
  image_type : Ptr
  image_name : Ptr
deriving DecidableEq

/-- Calls that cross the boundary to the image-management library.  A call that hands a record to
an entry point is logged with the memory the entry point sees. -/
inductive Event where
  | image_module_init (conf : isulad_daemon_configs) (mem : Heap)
  | free_isulad_daemon_configs (conf : isulad_daemon_configs)
  | im_prepare_container_rootfs (req : im_prepare_request) (mem : Heap)
  | free_im_prepare_request (req : im_prepare_request)
deriving DecidableEq

/-- Process state observed by the embedding. -/
structure World where
  heap : Heap
  allocs : Nat
  trace : List Event
deriving DecidableEq

/-- How a run ends: normal return, `abort()`, or undefined behaviour. -/
inductive Outcome (α : Type) where
  | ret (a : α) (w : World)
  | abort (w : World)
  | ub (w : World)
deriving DecidableEq

/-- The world at the end of a run. -/
def Outcome.world {α : Type} : Outcome α → World
  | .ret _ w => w
  | .abort w => w
  | .ub w => w

/-- The returned value, when the run returns. -/
def Outcome.value {α : Type} : Outcome α → Option α
  | .ret a _ => some a
  | .abort _ => none
  | .ub _ => none

/-- Computations over the world. -/
def Exec (α : Type) : Type := World → Outcome α

/-- Sequencing: a run that aborted or went undefined stops there. -/
def Exec.bind {α β : Type} (m : Exec α) (f : α → Exec β) : Exec β := fun w =>
  match m w with
  | .ret a w1 => f a w1
  | .abort w1 => .abort w1
  | .ub w1 => .ub w1

instance : Monad Exec where
  pure a := fun w => .ret a w
  bind := Exec.bind

/-- The libc `abort()`. -/
def abort {α : Type} : Exec α := fun w => .abort w

/-- Undefined behaviour. -/
def undefined {α : Type} : Exec α := fun w => .ub w

/-- The libc `strdup(src)` for a non-null `src`: reads the string at `src` and returns a fresh
block holding the same characters, or `NULL` when the allocation fails. -/
def strdup (alloc_ok : Nat → Bool) (src : Addr) : Exec Ptr := fun w =>
  match heap_read w.heap src with
  | none => .ub w
  | some s =>
    if alloc_ok w.allocs then
      .ret (some w.heap.length) { w with heap := w.heap ++ [some s], allocs := w.allocs + 1 }
    else
      .ret none { w with allocs := w.allocs + 1 }

/-- The libc `malloc(size)` for a block of `char *` slots: `NULL` on failure, otherwise a block
with room for `size / sizeof(char *)` pointers (their initial values are indeterminate; the
embedding shows them as `NULL`). -/
def malloc (alloc_ok : Nat → Bool) (size : Nat) : Exec (Option (List Ptr)) := fun w =>
  if alloc_ok w.allocs then
    .ret (some (List.replicate (size / sizeof_char_ptr) none)) { w with allocs := w.allocs + 1 }
  else
    .ret none { w with allocs := w.allocs + 1 }

/-- Modelled from the spec: `safe_malloc` is not part of this repository's sources.  The spec
says allocation failure for the record is fatal (process abort); on success the caller gets a
zero-filled record `zero`. -/
def safe_malloc {α : Type} (alloc_ok : Nat → Bool) (zero : α) : Exec α := fun w =>
  if alloc_ok w.allocs then
    .ret zero { w with allocs := w.allocs + 1 }
  else
    .abort { w with allocs := w.allocs + 1 }

/-- The load `arr[i]` from the caller's array of `char *`. -/
def load_ptr (arr : List Ptr) (i : Nat) : Exec Ptr :=
  match arr[i]? with
  | none => undefined
  | some p => pure p

/-- The store `arr[i] = p` through a `char **`. -/
def store_ptr (arr : Option (List Ptr)) (i : Nat) (p : Ptr) : Exec (Option (List Ptr)) :=
  match arr with
  | none => undefined
  | some a => if i < a.length then pure (some (a.set i p)) else undefined

/-- `isuladimg.c`, `util_strdup_s`. -/
def util_strdup_s (alloc_ok : Nat → Bool) (src : Ptr) : Exec Ptr :=
  match src with
  | none => pure none
  | some a => do
    let dst ← strdup alloc_ok a
    if dst = none then abort else pure dst

/-- The call `image_module_init(conf)` into the library, with the library's entry point injected
as `stub`. -/
def call_image_module_init (stub : Heap → isulad_daemon_configs → Int)
    (conf : isulad_daemon_configs) : Exec Int := fun w =>
  .ret (stub w.heap conf) { w with trace := w.trace ++ [Event.image_module_init conf w.heap] }

/-- Modelled from the spec: what releasing a configuration record does to the heap.  The record
owns its three path strings and its first `storage_opts_len` option strings; each is freed. -/
def release_daemon_configs (h : Heap) (conf : isulad_daemon_configs) : Heap :=
  let h1 := heap_release (heap_release (heap_release h conf.graph) conf.state)
    conf.storage_driver
  match conf.storage_opts with
  | none => h1
  | some a => (a.take conf.storage_opts_len).foldl heap_release h1

/-- Modelled from the spec: `free_isulad_daemon_configs` is not part of this repository's sources.
The spec says it releases the transient configuration record. -/
def free_isulad_daemon_configs (conf : isulad_daemon_configs) : Exec Unit := fun w =>
  .ret () { w with heap := release_daemon_configs w.heap conf,
                   trace := w.trace ++ [Event.free_isulad_daemon_configs conf] }

/-- The call `im_prepare_container_rootfs(req, &real_rootfs)` into the library, with the entry
point injected as `stub`: from the memory, the request and the current content of the output slot
it gives the status and the new content of the output slot. -/
def call_im_prepare_container_rootfs (stub : Heap → im_prepare_request → Ptr → Int × Ptr)
    (req : im_prepare_request) (real_rootfs : Ptr) : Exec (Int × Ptr) := fun w =>
  .ret (stub w.heap req real_rootfs)
    { w with trace := w.trace ++ [Event.im_prepare_container_rootfs req w.heap] }

/-- Modelled from the spec: what releasing a request record does to the heap.  The record owns
its three strings; each is freed. -/
def release_prepare_request (h : Heap) (req : im_prepare_request) : Heap :=
  heap_release (heap_release (heap_release h req.container_id) req.image_type) req.image_name

/-- Modelled from the spec: `free_im_prepare_request` is not part of this repository's sources.
The spec says it releases the transient request record. -/
def free_im_prepare_request (req : im_prepare_request) : Exec Unit := fun w =>
  .ret () { w with heap := release_prepare_request w.heap req,
                   trace := w.trace ++ [Event.free_im_prepare_request req] }

/-- The loop `for (i = 0; i < len; i++) storage_opts[i] = util_strdup_s(opts[i]);` with `n`
iterations left, at index `i`. -/
def copy_opts (alloc_ok : Nat → Bool) (opts : List Ptr) :
    Nat → Nat → Option (List Ptr) → Exec (Option (List Ptr))
  | 0, _, storage_opts => pure storage_opts
  | n + 1, i, storage_opts => do
    let src ← load_ptr opts i
    let dup ← util_strdup_s alloc_ok src
    let storage_opts ← store_ptr storage_opts i dup
    copy_opts alloc_ok opts n (i + 1) storage_opts

/-- `isuladimg.c`, `init_isulad_image_module`. -/
def init_isulad_image_module (alloc_ok : Nat → Bool)
    (image_module_init : Heap → isulad_daemon_configs → Int)
    (graph state driver : Ptr) (opts : List Ptr) (len : Nat) (check : Int) : Exec Int :=
  if graph = none ∨ state = none ∨ driver = none then
    pure (-1)
  else do
    let conf ← safe_malloc alloc_ok
      (isulad_daemon_configs.mk none none none none 0 false)
    let conf := { conf with graph := ← util_strdup_s alloc_ok graph }
    let conf := { conf with state := ← util_strdup_s alloc_ok state }
    let conf := { conf with storage_driver := ← util_strdup_s alloc_ok driver }
    let storage_opts ← malloc alloc_ok (sizeof_char_ptr * len % 2 ^ SIZE_BITS)
    let storage_opts ← copy_opts alloc_ok opts len 0 storage_opts
    let conf := { conf with storage_opts := storage_opts }
    let conf := { conf with storage_opts_len := len }
    let conf :=
      if check = 1 then { conf with image_layer_check := true }
      else { conf with image_layer_check := false }
    let ret ← call_image_module_init image_module_init conf
    free_isulad_daemon_configs conf
    pure ret

/-- `isuladimg.c`, `isulad_img_prepare_rootfs`. -/
def isulad_img_prepare_rootfs (alloc_ok : Nat → Bool)
    (im_prepare_container_rootfs : Heap → im_prepare_request → Ptr → Int × Ptr)
    (type id name : Ptr) : Exec Ptr :=
  if type = none ∨ id = none ∨ name = none then
    pure none
  else do
    let req ← safe_malloc alloc_ok (im_prepare_request.mk none none none)
    let req := { req with container_id := ← util_strdup_s alloc_ok id }
    let req := { req with image_type := ← util_strdup_s alloc_ok type }
    let req := { req with image_name := ← util_strdup_s alloc_ok name }
    let r ← call_im_prepare_container_rootfs im_prepare_container_rootfs req none
    let real_rootfs := if r.1 ≠ 0 then none else r.2
    free_im_prepare_request req
    pure real_rootfs

/-! ## Vocabulary of the statements -/

/-- The pointer `p` is present and designates a live string in memory `h`. -/
def valid_string (h : Heap) (p : Ptr) : Prop :=
  ∃ a s, p = some a ∧ heap_read h a = some s

/-- The caller's array `opts` holds at least `len` entries, each `NULL` or a live string, and the
array fits into the address space. -/
def valid_opts (h : Heap) (opts : List Ptr) (len : Nat) : Prop :=
  len ≤ opts.length ∧ sizeof_char_ptr * opts.length < 2 ^ SIZE_BITS ∧
    ∀ j a, j < len → opts[j]? = some (some a) → ∃ s, heap_read h a = some s

/-- The pointer `dst`, read in memory `h1`, duplicates the caller's pointer `src` of memory `h0`:
`NULL` for `NULL`, and otherwise a block that did not exist in `h0` holding the same string. -/
def is_duplicate (h0 h1 : Heap) (src dst : Ptr) : Prop :=
  match src with
  | none => dst = none
  | some a => ∃ b s, dst = some b ∧ h0.length ≤ b ∧ heap_read h0 a = some s ∧
      heap_read h1 b = some s

/-- The content `p` points to in memory `h`; `none` for `NULL` and for a dead block. -/
def string_at (h : Heap) (p : Ptr) : Option String := p.bind (heap_read h)

/-- Every string a reader of the configuration record reaches through it, in memory `h`: the three
paths, then the first `storage_opts_len` options. -/
def config_strings (h : Heap) (conf : isulad_daemon_configs) : List (Option String) :=
  [string_at h conf.graph, string_at h conf.state, string_at h conf.storage_driver] ++
    match conf.storage_opts with
    | none => []
    | some a => (a.take conf.storage_opts_len).map (string_at h)

/-- Number of calls of `image_module_init` in a trace. -/
def calls_image_module_init (tr : List Event) : Nat :=
  tr.countP fun e => match e with
    | .image_module_init _ _ => true
    | _ => false

/-- Number of calls of `im_prepare_container_rootfs` in a trace. -/
def calls_im_prepare_container_rootfs (tr : List Event) : Nat :=
  tr.countP fun e => match e with
    | .im_prepare_container_rootfs _ _ => true
    | _ => false

/-- The configuration records handed to `image_module_init` in a trace, in order. -/
def passed_configs (tr : List Event) : List isulad_daemon_configs :=
  tr.filterMap fun e => match e with
    | .image_module_init conf _ => some conf
    | _ => none

/-! ## Sample inputs -/

/-- An allocator that never fails. -/
def no_failure : Nat → Bool := fun _ => true

/-- An allocator whose fifth request (the option-pointer array of `init_isulad_image_module`)
fails and whose other requests succeed. -/
def array_failure : Nat → Bool := fun k => k != 4

/-- Caller memory: a graph path, a state path, a driver name, one driver option, an image type,
a container id and an image name. -/
def sample_heap : Heap :=
  [some "/var/lib/isulad", some "/var/run/isulad", some "overlay2",
    some "overlay2.override_kernel_check=true", some "oci", some "3f9c2a",
    some "busybox:latest"]

/-- The world before the call: the caller's memory, no allocation request and no call so far. -/
def sample_world : World := ⟨sample_heap, 0, []⟩

/-- An option array with one string and one `NULL` entry. -/
def sample_opts : List Ptr := [some 3, none]

/-- A library entry point that reports the status -1. -/
def failing_init : Heap → isulad_daemon_configs → Int := fun _ _ => -1

/-- A library entry point that reports success and writes the pointer 40 into the output slot. -/
def prepare_ok : Heap → im_prepare_request → Ptr → Int × Ptr := fun _ _ _ => (0, some 40)

/-- A library entry point that reports the status 5 after writing the pointer 40 into the output
slot. -/
def prepare_failing : Heap → im_prepare_request → Ptr → Int × Ptr := fun _ _ _ => (5, some 40)

/-! ## Lemmas: the heap -/

theorem heap_read_append {h : Heap} {a : Addr} {s : String} (t : Heap)
    (hr : heap_read h a = some s) : heap_read (h ++ t) a = some s := by
  unfold heap_read at *
  have hlt : a < h.length := by
    by_contra hge
    have hle : h.length ≤ a := Nat.le_of_not_lt hge
    rw [List.getElem?_eq_none hle] at hr
    simp at hr
  rw [List.getElem?_append_left hlt]
  exact hr

theorem heap_read_append_lt (h t : Heap) {a : Addr} (hlt : a < h.length) :
    heap_read (h ++ t) a = heap_read h a := by
  unfold heap_read
  rw [List.getElem?_append_left hlt]

theorem heap_read_new (h : Heap) (s : String) : heap_read (h ++ [some s]) h.length = some s := by
  unfold heap_read
  simp

theorem heap_read_release_ne (h : Heap) {a b : Addr} (hne : b ≠ a) :
    heap_read (heap_release h (some b)) a = heap_read h a := by
  unfold heap_read heap_release
  simp [List.getElem?_set_ne hne]

theorem heap_read_store_ne (h : Heap) {a b : Addr} (s : String) (hne : b ≠ a) :
    heap_read (heap_store h b s) a = heap_read h a := by
  unfold heap_read heap_store
  simp [List.getElem?_set_ne hne]

/-! ## `util_strdup_s` -/

theorem util_strdup_s_live (alloc_ok : Nat → Bool) (w : World) (a : Addr) (s : String)
    (hok : alloc_ok w.allocs = true) (hr : heap_read w.heap a = some s) :
    util_strdup_s alloc_ok (some a) w =
      .ret (some w.heap.length)
        { w with heap := w.heap ++ [some s], allocs := w.allocs + 1 } := by
  simp [util_strdup_s, bind, Exec.bind, strdup, hr, hok, pure]

theorem util_strdup_s_fail (alloc_ok : Nat → Bool) (w : World) (a : Addr) (s : String)
    (hok : alloc_ok w.allocs = false) (hr : heap_read w.heap a = some s) :
    util_strdup_s alloc_ok (some a) w = .abort { w with allocs := w.allocs + 1 } := by
  simp [util_strdup_s, bind, Exec.bind, strdup, hr, hok, abort]

/-! ## The copy loop -/

theorem copy_opts_run (alloc_ok : Nat → Bool) (hok : ∀ k, alloc_ok k = true) (opts : List Ptr)
    (h0 : Heap) :
    ∀ (n i : Nat) (buf : List Ptr) (w : World),
      i + n ≤ buf.length → i + n ≤ opts.length →
      (∃ t, w.heap = h0 ++ t) →
      (∀ j a, j < i + n → opts[j]? = some (some a) → ∃ s, heap_read h0 a = some s) →
      ∃ buf1 w1, copy_opts alloc_ok opts n i (some buf) w = .ret (some buf1) w1 ∧
        buf1.length = buf.length ∧ w1.trace = w.trace ∧ (∃ t, w1.heap = w.heap ++ t) ∧
        (∀ j, j < i → buf1[j]? = buf[j]?) ∧
        (∀ j, i ≤ j → j < i + n →
          ∃ p q, opts[j]? = some p ∧ buf1[j]? = some q ∧ is_duplicate h0 w1.heap p q) := by
  intro n
  induction n with
  | zero =>
    intro i buf w _ _ _ _
    exact ⟨buf, w, rfl, rfl, rfl, ⟨[], by simp⟩, fun _ _ => rfl, fun j h1 h2 => by omega⟩
  | succ n ih =>
    intro i buf w hb ho hext0 hlive
    obtain ⟨t, ht⟩ := hext0
    have hi : i < opts.length := by omega
    have hib : i < buf.length := by omega
    obtain ⟨p, hp⟩ : ∃ p, opts[i]? = some p := ⟨opts[i], List.getElem?_eq_getElem hi⟩
    cases p with
    | none =>
      have hstep : copy_opts alloc_ok opts (n + 1) i (some buf) w =
          copy_opts alloc_ok opts n (i + 1) (some (buf.set i none)) w := by
        simp [copy_opts, bind, Exec.bind, load_ptr, hp, pure, util_strdup_s, store_ptr, hib]
      obtain ⟨buf1, w1, hrun, hlen, htr, hext, hlow, hhigh⟩ :=
        ih (i + 1) (buf.set i none) w (by simp; omega) (by omega) ⟨t, ht⟩
          (fun j a hj => hlive j a (by omega))
      refine ⟨buf1, w1, by rw [hstep, hrun], by simpa using hlen, htr, hext, ?_, ?_⟩
      · intro j hj
        rw [hlow j (by omega)]
        exact List.getElem?_set_ne (by omega)
      · intro j h1 h2
        rcases Nat.eq_or_lt_of_le h1 with heq | hlt
        · subst heq
          refine ⟨none, none, hp, ?_, rfl⟩
          rw [hlow i (by omega)]
          simp [List.getElem?_set_self, hib]
        · exact hhigh j hlt (by omega)
    | some a =>
      obtain ⟨s, hs⟩ := hlive i a (by omega) hp
      have hsw : heap_read w.heap a = some s := by
        rw [ht]
        exact heap_read_append t hs
      have hstep : copy_opts alloc_ok opts (n + 1) i (some buf) w =
          copy_opts alloc_ok opts n (i + 1) (some (buf.set i (some w.heap.length)))
            { w with heap := w.heap ++ [some s], allocs := w.allocs + 1 } := by
        simp [copy_opts, bind, Exec.bind, load_ptr, hp, pure,
          util_strdup_s_live alloc_ok w a s (hok _) hsw, store_ptr, hib]
      obtain ⟨buf1, w1, hrun, hlen, htr, hext, hlow, hhigh⟩ :=
        ih (i + 1) (buf.set i (some w.heap.length))
          { w with heap := w.heap ++ [some s], allocs := w.allocs + 1 }
          (by simp; omega) (by omega) ⟨t ++ [some s], by simp [ht]⟩
          (fun j a hj => hlive j a (by omega))
      obtain ⟨t1, ht1⟩ := hext
      refine ⟨buf1, w1, by rw [hstep, hrun], by simpa using hlen, htr,
        ⟨[some s] ++ t1, by simpa using ht1⟩, ?_, ?_⟩
      · intro j hj
        rw [hlow j (by omega)]
        exact List.getElem?_set_ne (by omega)
      · intro j h1 h2
        rcases Nat.eq_or_lt_of_le h1 with heq | hlt
        · subst heq
          refine ⟨some a, some w.heap.length, hp, ?_, ?_⟩
          · rw [hlow i (by omega)]
            simp [List.getElem?_set_self, hib]
          · refine ⟨w.heap.length, s, rfl, ?_, hs, ?_⟩
            · rw [ht]
              simp
            · rw [ht1]
              exact heap_read_append t1 (heap_read_new w.heap s)
        · exact hhigh j hlt (by omega)

/-! ## The two adapters on well-formed input -/

theorem init_run (alloc_ok : Nat → Bool) (hok : ∀ k, alloc_ok k = true)
    (stub : Heap → isulad_daemon_configs → Int) (w : World) (graph state driver : Ptr)
    (opts : List Ptr) (len : Nat) (check : Int)
    (hg : valid_string w.heap graph) (hs : valid_string w.heap state)
    (hd : valid_string w.heap driver) (ho : valid_opts w.heap opts len) :
    ∃ conf h1 w1,
      init_isulad_image_module alloc_ok stub graph state driver opts len check w =
        .ret (stub h1 conf) w1 ∧
      w1.trace = w.trace ++
        [Event.image_module_init conf h1, Event.free_isulad_daemon_configs conf] ∧
      w1.heap = release_daemon_configs h1 conf ∧
      (∃ t, h1 = w.heap ++ t) ∧
      is_duplicate w.heap h1 graph conf.graph ∧
      is_duplicate w.heap h1 state conf.state ∧
      is_duplicate w.heap h1 driver conf.storage_driver ∧
      conf.storage_opts_len = len ∧
      (∃ buf, conf.storage_opts = some buf ∧ buf.length = len ∧
        ∀ j, j < len → ∃ p q, opts[j]? = some p ∧ buf[j]? = some q ∧
          is_duplicate w.heap h1 p q) ∧
      conf.image_layer_check = decide (check = 1) := by
  obtain ⟨g, sg, rfl, hgr⟩ := hg
  obtain ⟨s, ss, rfl, hsr⟩ := hs
  obtain ⟨d, sd, rfl, hdr⟩ := hd
  obtain ⟨hlen, hsz, hlive⟩ := ho
  have hcap : sizeof_char_ptr * len % 2 ^ SIZE_BITS / sizeof_char_ptr = len := by
    have hlt : sizeof_char_ptr * len < 2 ^ SIZE_BITS :=
      lt_of_le_of_lt (Nat.mul_le_mul_left _ hlen) hsz
    rw [Nat.mod_eq_of_lt hlt]
    simp [sizeof_char_ptr]
  have e1 := util_strdup_s_live alloc_ok { w with allocs := w.allocs + 1 } g sg (hok _) hgr
  have e2 := util_strdup_s_live alloc_ok
    { w with heap := w.heap ++ [some sg], allocs := w.allocs + 1 + 1 } s ss (hok _)
    (heap_read_append _ hsr)
  have e3 := util_strdup_s_live alloc_ok
    { w with heap := w.heap ++ [some sg] ++ [some ss], allocs := w.allocs + 1 + 1 + 1 } d sd
    (hok _) (heap_read_append _ (heap_read_append _ hdr))
  obtain ⟨buf1, w5, hrun, hblen, htr, hext, _, hhigh⟩ :=
    copy_opts_run alloc_ok hok opts w.heap len 0 (List.replicate len none)
      { w with heap := w.heap ++ [some sg] ++ [some ss] ++ [some sd],
               allocs := w.allocs + 1 + 1 + 1 + 1 + 1 }
      (by simp) (by simpa using hlen) ⟨[some sg, some ss, some sd], by simp⟩
      (by simpa using hlive)
  obtain ⟨t, ht⟩ := hext
  simp only at ht htr e1 e2 e3
  have hg5 : heap_read w5.heap w.heap.length = some sg := by
    rw [ht]
    exact heap_read_append _ (heap_read_append _ (heap_read_append _ (heap_read_new w.heap sg)))
  have hs5 : heap_read w5.heap (w.heap.length + 1) = some ss := by
    rw [ht]
    have hnew := heap_read_new (w.heap ++ [some sg]) ss
    simp only [List.length_append, List.length_singleton] at hnew
    exact heap_read_append _ (heap_read_append _ hnew)
  have hd5 : heap_read w5.heap (w.heap.length + 1 + 1) = some sd := by
    rw [ht]
    have hnew := heap_read_new (w.heap ++ [some sg] ++ [some ss]) sd
    simp only [List.length_append, List.length_singleton] at hnew
    exact heap_read_append _ hnew
  refine ⟨⟨some w.heap.length, some (w.heap.length + 1), some (w.heap.length + 1 + 1),
    some buf1, len, decide (check = 1)⟩, w5.heap,
    { heap := release_daemon_configs w5.heap ⟨some w.heap.length, some (w.heap.length + 1),
        some (w.heap.length + 1 + 1), some buf1, len, decide (check = 1)⟩,
      allocs := w5.allocs,
      trace := w5.trace ++ [Event.image_module_init ⟨some w.heap.length,
        some (w.heap.length + 1), some (w.heap.length + 1 + 1), some buf1, len,
        decide (check = 1)⟩ w5.heap] ++ [Event.free_isulad_daemon_configs ⟨some w.heap.length,
        some (w.heap.length + 1), some (w.heap.length + 1 + 1), some buf1, len,
        decide (check = 1)⟩] }, ?_, ?_, ?_, ?_, ?_, ?_, ?_, ?_, ?_, ?_⟩
  · simp at e1 e2 e3 hrun
    by_cases hc : check = 1 <;>
      simp [init_isulad_image_module, bind, Exec.bind, safe_malloc, hok, e1, e2, e3, malloc,
        hcap, hrun, call_image_module_init, free_isulad_daemon_configs, pure, hc]
  · simp [htr]
  · rfl
  · exact ⟨[some sg] ++ ([some ss] ++ ([some sd] ++ t)), by rw [ht]; simp only [List.append_assoc]⟩
  · exact ⟨_, sg, rfl, le_refl _, hgr, hg5⟩
  · exact ⟨_, ss, rfl, by omega, hsr, hs5⟩
  · exact ⟨_, sd, rfl, by omega, hdr, hd5⟩
  · rfl
  · refine ⟨buf1, rfl, by simpa using hblen, ?_⟩
    intro j hj
    exact hhigh j (Nat.zero_le _) (by omega)
  · rfl

theorem prepare_run (alloc_ok : Nat → Bool) (hok : ∀ k, alloc_ok k = true)
    (stub : Heap → im_prepare_request → Ptr → Int × Ptr) (w : World) (type id name : Ptr)
    (ht : valid_string w.heap type) (hi : valid_string w.heap id)
    (hn : valid_string w.heap name) :
    ∃ req h1 w1,
      isulad_img_prepare_rootfs alloc_ok stub type id name w =
        .ret (if (stub h1 req none).1 ≠ 0 then none else (stub h1 req none).2) w1 ∧
      w1.trace = w.trace ++
        [Event.im_prepare_container_rootfs req h1, Event.free_im_prepare_request req] ∧
      w1.heap = release_prepare_request h1 req ∧
      (∃ t, h1 = w.heap ++ t) ∧
      is_duplicate w.heap h1 id req.container_id ∧
      is_duplicate w.heap h1 type req.image_type ∧
      is_duplicate w.heap h1 name req.image_name := by
  obtain ⟨ta, st, rfl, htr⟩ := ht
  obtain ⟨ia, si, rfl, hir⟩ := hi
  obtain ⟨na, sn, rfl, hnr⟩ := hn
  have e1 := util_strdup_s_live alloc_ok { w with allocs := w.allocs + 1 } ia si (hok _) hir
  have e2 := util_strdup_s_live alloc_ok
    { w with heap := w.heap ++ [some si], allocs := w.allocs + 1 + 1 } ta st (hok _)
    (heap_read_append _ htr)
  have e3 := util_strdup_s_live alloc_ok
    { w with heap := w.heap ++ [some si] ++ [some st], allocs := w.allocs + 1 + 1 + 1 } na sn
    (hok _) (heap_read_append _ (heap_read_append _ hnr))
  have hi5 : heap_read (w.heap ++ [some si] ++ [some st] ++ [some sn]) w.heap.length =
      some si :=
    heap_read_append _ (heap_read_append _ (heap_read_new w.heap si))
  have ht5 : heap_read (w.heap ++ [some si] ++ [some st] ++ [some sn]) (w.heap.length + 1) =
      some st := by
    have hnew := heap_read_new (w.heap ++ [some si]) st
    simp only [List.length_append, List.length_singleton] at hnew
    exact heap_read_append _ hnew
  have hn5 : heap_read (w.heap ++ [some si] ++ [some st] ++ [some sn])
      (w.heap.length + 1 + 1) = some sn := by
    have hnew := heap_read_new (w.heap ++ [some si] ++ [some st]) sn
    simp only [List.length_append, List.length_singleton] at hnew
    exact hnew
  refine ⟨⟨some w.heap.length, some (w.heap.length + 1), some (w.heap.length + 1 + 1)⟩,
    w.heap ++ [some si] ++ [some st] ++ [some sn],
    { heap := release_prepare_request (w.heap ++ [some si] ++ [some st] ++ [some sn])
        ⟨some w.heap.length, some (w.heap.length + 1), some (w.heap.length + 1 + 1)⟩,
      allocs := w.allocs + 1 + 1 + 1 + 1,
      trace := w.trace ++ [Event.im_prepare_container_rootfs ⟨some w.heap.length,
        some (w.heap.length + 1), some (w.heap.length + 1 + 1)⟩
        (w.heap ++ [some si] ++ [some st] ++ [some sn])] ++
        [Event.free_im_prepare_request ⟨some w.heap.length, some (w.heap.length + 1),
          some (w.heap.length + 1 + 1)⟩] }, ?_, ?_, ?_, ?_, ?_, ?_, ?_⟩
  · simp at e1 e2 e3
    simp [isulad_img_prepare_rootfs, bind, Exec.bind, safe_malloc, hok, e1, e2, e3,
      call_im_prepare_container_rootfs, free_im_prepare_request, pure]
  · simp
  · rfl
  · exact ⟨[some si] ++ ([some st] ++ [some sn]), by simp only [List.append_assoc]⟩
  · exact ⟨_, si, rfl, le_refl _, hir, hi5⟩
  · exact ⟨_, st, rfl, by omega, htr, ht5⟩
  · exact ⟨_, sn, rfl, by omega, hnr, hn5⟩

/-! ## Duplicates -/

theorem is_duplicate_content {h0 h1 : Heap} {src dst : Ptr}
    (hd : is_duplicate h0 h1 src dst) : string_at h1 dst = string_at h0 src := by
  cases src with
  | none =>
    have hn : dst = none := hd
    subst hn
    rfl
  | some a =>
    obtain ⟨b, s, h1b, _, h3, h4⟩ := hd
    subst h1b
    simp [string_at, h3, h4]

theorem is_duplicate_null_iff {h0 h1 : Heap} {src dst : Ptr}
    (hd : is_duplicate h0 h1 src dst) : src = none ↔ dst = none := by
  cases src with
  | none =>
    have hn : dst = none := hd
    simp [hn]
  | some a =>
    obtain ⟨b, s, h1b, _, _, _⟩ := hd
    simp [h1b]

theorem is_duplicate_fresh {h0 h1 : Heap} {src dst : Ptr}
    (hd : is_duplicate h0 h1 src dst) : ∀ b, dst = some b → h0.length ≤ b := by
  intro b hb
  cases src with
  | none =>
    have hn : dst = none := hd
    rw [hn] at hb
    cases hb
  | some a =>
    obtain ⟨b1, s, h1b, h2, _, _⟩ := hd
    rw [h1b] at hb
    cases hb
    exact h2

theorem is_duplicate_present {h0 h1 : Heap} {src dst : Ptr} (hv : valid_string h0 src)
    (hd : is_duplicate h0 h1 src dst) : dst ≠ none := by
  obtain ⟨a, s, rfl, _⟩ := hv
  obtain ⟨b, s, h1b, _, _, _⟩ := hd
  simp [h1b]

theorem string_at_store_fresh (h : Heap) {n a : Addr} (q : Ptr) (s : String)
    (hq : ∀ b, q = some b → n ≤ b) (ha : a < n) :
    string_at (heap_store h a s) q = string_at h q := by
  cases q with
  | none => rfl
  | some b =>
    have hb := hq b rfl
    simp only [string_at, Option.bind_some]
    exact heap_read_store_ne h s (Nat.ne_of_lt (Nat.lt_of_lt_of_le ha hb))

theorem string_at_release_fresh (h : Heap) {n a : Addr} (q : Ptr)
    (hq : ∀ b, q = some b → n ≤ b) (ha : a < n) :
    string_at (heap_release h (some a)) q = string_at h q := by
  cases q with
  | none => rfl
  | some b =>
    have hb := hq b rfl
    simp only [string_at, Option.bind_some]
    exact heap_read_release_ne h (Nat.ne_of_lt (Nat.lt_of_lt_of_le ha hb))

theorem heap_read_release_fresh (h : Heap) {n a : Addr} (q : Ptr)
    (hq : ∀ b, q = some b → n ≤ b) (ha : a < n) :
    heap_read (heap_release h q) a = heap_read h a := by
  cases q with
  | none => rfl
  | some b =>
    have hb := hq b rfl
    exact heap_read_release_ne h (Nat.ne_of_gt (Nat.lt_of_lt_of_le ha hb))

theorem heap_read_foldl_release {n a : Addr} (ha : a < n) :
    ∀ (l : List Ptr) (h : Heap), (∀ q ∈ l, ∀ b, q = some b → n ≤ b) →
      heap_read (l.foldl heap_release h) a = heap_read h a := by
  intro l
  induction l with
  | nil => intro h _; rfl
  | cons q l ih =>
    intro h hl
    rw [List.foldl_cons, ih _ (fun q1 hq1 => hl q1 (List.mem_cons_of_mem _ hq1))]
    exact heap_read_release_fresh h q (hl q (List.mem_cons_self _ _)) ha

/-! ## Facts about the sample inputs -/

theorem no_failure_ok : ∀ k, no_failure k = true := fun _ => rfl

theorem sample_graph_valid : valid_string sample_heap (some 0) :=
  ⟨0, "/var/lib/isulad", rfl, rfl⟩

theorem sample_state_valid : valid_string sample_heap (some 1) :=
  ⟨1, "/var/run/isulad", rfl, rfl⟩

theorem sample_driver_valid : valid_string sample_heap (some 2) :=
  ⟨2, "overlay2", rfl, rfl⟩

theorem sample_type_valid : valid_string sample_heap (some 4) :=
  ⟨4, "oci", rfl, rfl⟩

theorem sample_id_valid : valid_string sample_heap (some 5) :=
  ⟨5, "3f9c2a", rfl, rfl⟩

theorem sample_name_valid : valid_string sample_heap (some 6) :=
  ⟨6, "busybox:latest", rfl, rfl⟩

theorem sample_opts_valid : valid_opts sample_heap sample_opts 2 := by
  refine ⟨by decide, by norm_num [sizeof_char_ptr, SIZE_BITS, sample_opts], ?_⟩
  intro j a hj h
  interval_cases j
  · simp [sample_opts] at h
    subst h
    exact ⟨_, rfl⟩
  · simp [sample_opts] at h

theorem calls_image_module_init_append (tr : List Event) (conf : isulad_daemon_configs)
    (h1 : Heap) :
    calls_image_module_init
      (tr ++ [Event.image_module_init conf h1, Event.free_isulad_daemon_configs conf]) =
      calls_image_module_init tr + 1 := by
  simp [calls_image_module_init, List.countP_append, List.countP_cons]

theorem calls_im_prepare_container_rootfs_append (tr : List Event) (req : im_prepare_request)
    (h1 : Heap) :
    calls_im_prepare_container_rootfs
      (tr ++ [Event.im_prepare_container_rootfs req h1, Event.free_im_prepare_request req]) =
      calls_im_prepare_container_rootfs tr + 1 := by
  simp [calls_im_prepare_container_rootfs, List.countP_append, List.countP_cons]

/-! ## The claims -/

/-- C1: when graph, state or driver is `NULL`, `init_isulad_image_module` returns -1 whatever
opts, len, check, the allocator and the library entry point are; the world is left as it was, so
the trace gains no call of `image_module_init`. -/
theorem init_rejects_absent_argument (alloc_ok : Nat → Bool)
    (stub : Heap → isulad_daemon_configs → Int) (graph state driver : Ptr) (opts : List Ptr)
    (len : Nat) (check : Int) (w : World)
    (h : graph = none ∨ state = none ∨ driver = none) :
    init_isulad_image_module alloc_ok stub graph state driver opts len check w =
        Outcome.ret (-1) w ∧
      calls_image_module_init
        (init_isulad_image_module alloc_ok stub graph state driver opts len check w).world.trace =
        calls_image_module_init w.trace := by
  have hrun : init_isulad_image_module alloc_ok stub graph state driver opts len check w =
      Outcome.ret (-1) w := by
    simp [init_isulad_image_module, h, pure]
  rw [hrun]
  exact ⟨rfl, rfl⟩

/-- Witness of C1: a `NULL` state, with an allocator that would fail, the sample options and
check 1. -/
theorem init_rejects_absent_argument_witness :
    ((some 0 : Ptr) = none ∨ (none : Ptr) = none ∨ (some 2 : Ptr) = none) ∧
      init_isulad_image_module array_failure failing_init (some 0) none (some 2) sample_opts 2 1
        sample_world = Outcome.ret (-1) sample_world ∧
      calls_image_module_init
        (init_isulad_image_module array_failure failing_init (some 0) none (some 2) sample_opts
          2 1 sample_world).world.trace = calls_image_module_init sample_world.trace :=
  ⟨Or.inr (Or.inl rfl),
    init_rejects_absent_argument array_failure failing_init (some 0) none (some 2) sample_opts
      2 1 sample_world (Or.inr (Or.inl rfl))⟩

/-- C2: with graph, state and driver present, opts holding len entries and no allocation failure,
`init_isulad_image_module` returns, calls `image_module_init` exactly once, and returns the very
integer that call gave, whatever it is. -/
theorem init_forwards_status (alloc_ok : Nat → Bool) (hok : ∀ k, alloc_ok k = true)
    (stub : Heap → isulad_daemon_configs → Int) (w : World) (graph state driver : Ptr)
    (opts : List Ptr) (len : Nat) (check : Int)
    (hg : valid_string w.heap graph) (hs : valid_string w.heap state)
    (hd : valid_string w.heap driver) (ho : valid_opts w.heap opts len) :
    ∃ conf h1,
      (init_isulad_image_module alloc_ok stub graph state driver opts len check w).value =
        some (stub h1 conf) ∧
      (init_isulad_image_module alloc_ok stub graph state driver opts len check w).world.trace =
        w.trace ++ [Event.image_module_init conf h1, Event.free_isulad_daemon_configs conf] ∧
      calls_image_module_init
        (init_isulad_image_module alloc_ok stub graph state driver opts len check w).world.trace =
        calls_image_module_init w.trace + 1 := by
  obtain ⟨conf, h1, w1, hrun, htr, _⟩ :=
    init_run alloc_ok hok stub w graph state driver opts len check hg hs hd ho
  refine ⟨conf, h1, ?_, ?_, ?_⟩
  · rw [hrun]
    rfl
  · rw [hrun]
    exact htr
  · rw [hrun]
    show calls_image_module_init w1.trace = _
    rw [htr]
    exact calls_image_module_init_append _ _ _

/-- Witness of C2: the sample input with a library entry point that reports -1. -/
theorem init_forwards_status_witness :
    (∀ k, no_failure k = true) ∧ valid_string sample_world.heap (some 0) ∧
      valid_string sample_world.heap (some 1) ∧ valid_string sample_world.heap (some 2) ∧
      valid_opts sample_world.heap sample_opts 2 ∧
      ∃ conf h1,
        (init_isulad_image_module no_failure failing_init (some 0) (some 1) (some 2) sample_opts
          2 1 sample_world).value = some (failing_init h1 conf) ∧
        (init_isulad_image_module no_failure failing_init (some 0) (some 1) (some 2) sample_opts
          2 1 sample_world).world.trace =
          sample_world.trace ++
            [Event.image_module_init conf h1, Event.free_isulad_daemon_configs conf] ∧
        calls_image_module_init
          (init_isulad_image_module no_failure failing_init (some 0) (some 1) (some 2)
            sample_opts 2 1 sample_world).world.trace =
          calls_image_module_init sample_world.trace + 1 :=
  ⟨no_failure_ok, sample_graph_valid, sample_state_valid, sample_driver_valid, sample_opts_valid,
    init_forwards_status no_failure no_failure_ok failing_init sample_world (some 0) (some 1)
      (some 2) sample_opts 2 1 sample_graph_valid sample_state_valid sample_driver_valid
      sample_opts_valid⟩

/-- C3: for a well-formed call of `isulad_img_prepare_rootfs` without allocation failure, the
library is called once on the request; when it reports status 0 the result is exactly what it left
in the output slot, and when it reports a nonzero status the result is `NULL`, whatever it left in
the output slot. -/
theorem prepare_rootfs_result (alloc_ok : Nat → Bool) (hok : ∀ k, alloc_ok k = true)
    (stub : Heap → im_prepare_request → Ptr → Int × Ptr) (w : World) (type id name : Ptr)
    (ht : valid_string w.heap type) (hi : valid_string w.heap id)
    (hn : valid_string w.heap name) :
    ∃ req h1,
      (isulad_img_prepare_rootfs alloc_ok stub type id name w).world.trace =
        w.trace ++
          [Event.im_prepare_container_rootfs req h1, Event.free_im_prepare_request req] ∧
      ((stub h1 req none).1 = 0 →
        (isulad_img_prepare_rootfs alloc_ok stub type id name w).value =
          some (stub h1 req none).2) ∧
      ((stub h1 req none).1 ≠ 0 →
        (isulad_img_prepare_rootfs alloc_ok stub type id name w).value = some none) := by
  obtain ⟨req, h1, w1, hrun, htr, _⟩ := prepare_run alloc_ok hok stub w type id name ht hi hn
  refine ⟨req, h1, ?_, ?_, ?_⟩
  · rw [hrun]
    exact htr
  · intro h0
    rw [hrun]
    simp [Outcome.value, h0]
  · intro h0
    rw [hrun]
    simp [Outcome.value, h0]

/-- Witness of C3: the library reports 5 after writing a path; the result is `NULL`. -/
theorem prepare_rootfs_result_witness :
    (∀ k, no_failure k = true) ∧ valid_string sample_world.heap (some 4) ∧
      valid_string sample_world.heap (some 5) ∧ valid_string sample_world.heap (some 6) ∧
      ∃ req h1,
        (isulad_img_prepare_rootfs no_failure prepare_failing (some 4) (some 5) (some 6)
          sample_world).world.trace =
          sample_world.trace ++
            [Event.im_prepare_container_rootfs req h1, Event.free_im_prepare_request req] ∧
        ((prepare_failing h1 req none).1 = 0 →
          (isulad_img_prepare_rootfs no_failure prepare_failing (some 4) (some 5) (some 6)
            sample_world).value = some (prepare_failing h1 req none).2) ∧
        ((prepare_failing h1 req none).1 ≠ 0 →
          (isulad_img_prepare_rootfs no_failure prepare_failing (some 4) (some 5) (some 6)
            sample_world).value = some none) :=
  ⟨no_failure_ok, sample_type_valid, sample_id_valid, sample_name_valid,
    prepare_rootfs_result no_failure no_failure_ok prepare_failing sample_world (some 4) (some 5)
      (some 6) sample_type_valid sample_id_valid sample_name_valid⟩

/-- C4: when type, id or name is `NULL`, `isulad_img_prepare_rootfs` returns `NULL` and leaves
the world as it was, so the trace gains no call of `im_prepare_container_rootfs`. -/
theorem prepare_rejects_absent_argument (alloc_ok : Nat → Bool)
    (stub : Heap → im_prepare_request → Ptr → Int × Ptr) (type id name : Ptr) (w : World)
    (h : type = none ∨ id = none ∨ name = none) :
    isulad_img_prepare_rootfs alloc_ok stub type id name w = Outcome.ret none w ∧
      calls_im_prepare_container_rootfs
        (isulad_img_prepare_rootfs alloc_ok stub type id name w).world.trace =
        calls_im_prepare_container_rootfs w.trace := by
  have hrun : isulad_img_prepare_rootfs alloc_ok stub type id name w = Outcome.ret none w := by
    simp [isulad_img_prepare_rootfs, h, pure]
  rw [hrun]
  exact ⟨rfl, rfl⟩

/-- Witness of C4: a `NULL` name. -/
theorem prepare_rejects_absent_argument_witness :
    ((some 4 : Ptr) = none ∨ (some 5 : Ptr) = none ∨ (none : Ptr) = none) ∧
      isulad_img_prepare_rootfs no_failure prepare_ok (some 4) (some 5) none sample_world =
        Outcome.ret none sample_world ∧
      calls_im_prepare_container_rootfs
        (isulad_img_prepare_rootfs no_failure prepare_ok (some 4) (some 5) none
          sample_world).world.trace = calls_im_prepare_container_rootfs sample_world.trace :=
  ⟨Or.inr (Or.inr rfl),
    prepare_rejects_absent_argument no_failure prepare_ok (some 4) (some 5) none sample_world
      (Or.inr (Or.inr rfl))⟩

theorem options_fresh {h0 h1 : Heap} {opts buf : List Ptr} {len : Nat}
    (hhigh : ∀ j, j < len → ∃ p q, opts[j]? = some p ∧ buf[j]? = some q ∧
      is_duplicate h0 h1 p q)
    (hblen : buf.length = len) :
    ∀ q ∈ buf.take len, ∀ b, q = some b → h0.length ≤ b := by
  intro q hq b hb
  obtain ⟨j, hj⟩ := List.mem_iff_getElem?.mp (List.mem_of_mem_take hq)
  have hjlt : j < buf.length := by
    by_contra hge
    rw [List.getElem?_eq_none (Nat.le_of_not_lt hge)] at hj
    cases hj
  obtain ⟨p, q1, _, hq1, hdup⟩ := hhigh j (by omega)
  rw [hj] at hq1
  cases hq1
  exact is_duplicate_fresh hdup b hb

/-- C5: for a well-formed call of `init_isulad_image_module` without allocation failure, the
record handed to `image_module_init` has `storage_opts_len = len` and an option array of `len`
slots; slot `i` is `NULL` exactly when `opts[i]` is, and otherwise points to a block that did not
exist in the caller's memory and holds the same string as `opts[i]`.  `NULL` entries do not stop
the call. -/
theorem init_copies_options (alloc_ok : Nat → Bool) (hok : ∀ k, alloc_ok k = true)
    (stub : Heap → isulad_daemon_configs → Int) (w : World) (graph state driver : Ptr)
    (opts : List Ptr) (len : Nat) (check : Int)
    (hg : valid_string w.heap graph) (hs : valid_string w.heap state)
    (hd : valid_string w.heap driver) (ho : valid_opts w.heap opts len) :
    ∃ conf h1 buf,
      (init_isulad_image_module alloc_ok stub graph state driver opts len check w).value =
        some (stub h1 conf) ∧
      (init_isulad_image_module alloc_ok stub graph state driver opts len check w).world.trace =
        w.trace ++ [Event.image_module_init conf h1, Event.free_isulad_daemon_configs conf] ∧
      conf.storage_opts_len = len ∧ conf.storage_opts = some buf ∧ buf.length = len ∧
      ∀ i, i < len → ∃ p q, opts[i]? = some p ∧ buf[i]? = some q ∧
        (p = none ↔ q = none) ∧ string_at h1 q = string_at w.heap p ∧
        ∀ b, q = some b → w.heap.length ≤ b := by
  obtain ⟨conf, h1, w1, hrun, htr, _, _, _, _, _, hl, ⟨buf, hbuf, hblen, hhigh⟩, _⟩ :=
    init_run alloc_ok hok stub w graph state driver opts len check hg hs hd ho
  refine ⟨conf, h1, buf, ?_, ?_, hl, hbuf, hblen, ?_⟩
  · rw [hrun]
    rfl
  · rw [hrun]
    exact htr
  · intro i hi
    obtain ⟨p, q, hp, hq, hdup⟩ := hhigh i hi
    exact ⟨p, q, hp, hq, is_duplicate_null_iff hdup, is_duplicate_content hdup,
      is_duplicate_fresh hdup⟩

/-- Witness of C5: two options, the second one `NULL`. -/
theorem init_copies_options_witness :
    (∀ k, no_failure k = true) ∧ valid_string sample_world.heap (some 0) ∧
      valid_string sample_world.heap (some 1) ∧ valid_string sample_world.heap (some 2) ∧
      valid_opts sample_world.heap sample_opts 2 ∧
      ∃ conf h1 buf,
        (init_isulad_image_module no_failure failing_init (some 0) (some 1) (some 2) sample_opts
          2 1 sample_world).value = some (failing_init h1 conf) ∧
        (init_isulad_image_module no_failure failing_init (some 0) (some 1) (some 2) sample_opts
          2 1 sample_world).world.trace =
          sample_world.trace ++
            [Event.image_module_init conf h1, Event.free_isulad_daemon_configs conf] ∧
        conf.storage_opts_len = 2 ∧ conf.storage_opts = some buf ∧ buf.length = 2 ∧
        ∀ i, i < 2 → ∃ p q, sample_opts[i]? = some p ∧ buf[i]? = some q ∧
          (p = none ↔ q = none) ∧ string_at h1 q = string_at sample_world.heap p ∧
          ∀ b, q = some b → sample_world.heap.length ≤ b :=
  ⟨no_failure_ok, sample_graph_valid, sample_state_valid, sample_driver_valid, sample_opts_valid,
    init_copies_options no_failure no_failure_ok failing_init sample_world (some 0) (some 1)
      (some 2) sample_opts 2 1 sample_graph_valid sample_state_valid sample_driver_valid
      sample_opts_valid⟩

/-- C6 as amended: for a well-formed call of `init_isulad_image_module` without allocation
failure and every integer `check`, the `image_layer_check` field of the record handed to
`image_module_init` is true when `check` equals 1 and false for every other value. -/
theorem init_check_flag (alloc_ok : Nat → Bool) (hok : ∀ k, alloc_ok k = true)
    (stub : Heap → isulad_daemon_configs → Int) (w : World) (graph state driver : Ptr)
    (opts : List Ptr) (len : Nat) (check : Int)
    (hg : valid_string w.heap graph) (hs : valid_string w.heap state)
    (hd : valid_string w.heap driver) (ho : valid_opts w.heap opts len) :
    ∃ conf h1,
      (init_isulad_image_module alloc_ok stub graph state driver opts len check w).world.trace =
        w.trace ++ [Event.image_module_init conf h1, Event.free_isulad_daemon_configs conf] ∧
      conf.image_layer_check = decide (check = 1) := by
  obtain ⟨conf, h1, w1, hrun, htr, _, _, _, _, _, _, _, hc⟩ :=
    init_run alloc_ok hok stub w graph state driver opts len check hg hs hd ho
  refine ⟨conf, h1, ?_, hc⟩
  rw [hrun]
  exact htr

/-- Witness of C6 as amended: check = -1. -/
theorem init_check_flag_witness :
    (∀ k, no_failure k = true) ∧ valid_string sample_world.heap (some 0) ∧
      valid_string sample_world.heap (some 1) ∧ valid_string sample_world.heap (some 2) ∧
      valid_opts sample_world.heap sample_opts 2 ∧
      ∃ conf h1,
        (init_isulad_image_module no_failure failing_init (some 0) (some 1) (some 2) sample_opts
          2 (-1) sample_world).world.trace =
          sample_world.trace ++
            [Event.image_module_init conf h1, Event.free_isulad_daemon_configs conf] ∧
        conf.image_layer_check = decide ((-1 : Int) = 1) :=
  ⟨no_failure_ok, sample_graph_valid, sample_state_valid, sample_driver_valid, sample_opts_valid,
    init_check_flag no_failure no_failure_ok failing_init sample_world (some 0) (some 1)
      (some 2) sample_opts 2 (-1) sample_graph_valid sample_state_valid sample_driver_valid
      sample_opts_valid⟩

/-- Counterexample to C6 as stated: check = 2 is nonzero, yet the one record handed to
`image_module_init` has `image_layer_check = false`. -/
theorem init_check_two_gives_false :
    (2 : Int) ≠ 0 ∧
      (passed_configs
        (init_isulad_image_module no_failure failing_init (some 0) (some 1) (some 2) sample_opts
          2 2 sample_world).world.trace).map (fun conf => conf.image_layer_check) = [false] := by
  decide

/-- C7: for well-formed inputs without allocation failure and whatever the library reports, each
adapter builds its record from its arguments, calls the library exactly once on that record,
releases that same record exactly once after the call, and then returns.  The record of
`init_isulad_image_module` holds duplicates of graph, state and driver, an array of `len`
duplicated options, `storage_opts_len = len` and the flag `check == 1`; the record of
`isulad_img_prepare_rootfs` holds duplicates of id, type and name.  The trace gains the call
followed by the release and nothing else, the memory after the run is the memory the library saw
with that record released, and the value returned is the one computed from that single call. -/
theorem record_lifecycle (alloc_ok : Nat → Bool) (hok : ∀ k, alloc_ok k = true)
    (init_stub : Heap → isulad_daemon_configs → Int)
    (prepare_stub : Heap → im_prepare_request → Ptr → Int × Ptr) (w : World)
    (graph state driver : Ptr) (opts : List Ptr) (len : Nat) (check : Int) (type id name : Ptr)
    (hg : valid_string w.heap graph) (hs : valid_string w.heap state)
    (hd : valid_string w.heap driver) (ho : valid_opts w.heap opts len)
    (ht : valid_string w.heap type) (hi : valid_string w.heap id)
    (hn : valid_string w.heap name) :
    (∃ conf h1 buf w1,
      init_isulad_image_module alloc_ok init_stub graph state driver opts len check w =
        Outcome.ret (init_stub h1 conf) w1 ∧
      w1.trace = w.trace ++
        [Event.image_module_init conf h1, Event.free_isulad_daemon_configs conf] ∧
      w1.heap = release_daemon_configs h1 conf ∧
      is_duplicate w.heap h1 graph conf.graph ∧
      is_duplicate w.heap h1 state conf.state ∧
      is_duplicate w.heap h1 driver conf.storage_driver ∧
      conf.storage_opts = some buf ∧ buf.length = len ∧ conf.storage_opts_len = len ∧
      (∀ i, i < len → ∃ p q, opts[i]? = some p ∧ buf[i]? = some q ∧
        is_duplicate w.heap h1 p q) ∧
      conf.image_layer_check = decide (check = 1)) ∧
    (∃ req h1 w1,
      isulad_img_prepare_rootfs alloc_ok prepare_stub type id name w =
        Outcome.ret
          (if (prepare_stub h1 req none).1 ≠ 0 then none else (prepare_stub h1 req none).2) w1 ∧
      w1.trace = w.trace ++
        [Event.im_prepare_container_rootfs req h1, Event.free_im_prepare_request req] ∧
      w1.heap = release_prepare_request h1 req ∧
      is_duplicate w.heap h1 id req.container_id ∧
      is_duplicate w.heap h1 type req.image_type ∧
      is_duplicate w.heap h1 name req.image_name) := by
  obtain ⟨conf, h1, w1, hrun, htr, hheap, _, hdg, hds, hdd, hl, ⟨buf, hbuf, hblen, hhigh⟩, hc⟩ :=
    init_run alloc_ok hok init_stub w graph state driver opts len check hg hs hd ho
  obtain ⟨req, h2, w2, hrun2, htr2, hheap2, _, hdi, hdt, hdn⟩ :=
    prepare_run alloc_ok hok prepare_stub w type id name ht hi hn
  exact ⟨⟨conf, h1, buf, w1, hrun, htr, hheap, hdg, hds, hdd, hbuf, hblen, hl, hhigh, hc⟩,
    ⟨req, h2, w2, hrun2, htr2, hheap2, hdi, hdt, hdn⟩⟩

/-- Witness of C7: both library entry points report failure. -/
theorem record_lifecycle_witness :
    (∀ k, no_failure k = true) ∧ valid_string sample_world.heap (some 0) ∧
      valid_string sample_world.heap (some 1) ∧ valid_string sample_world.heap (some 2) ∧
      valid_opts sample_world.heap sample_opts 2 ∧ valid_string sample_world.heap (some 4) ∧
      valid_string sample_world.heap (some 5) ∧ valid_string sample_world.heap (some 6) ∧
      (∃ conf h1 buf w1,
        init_isulad_image_module no_failure failing_init (some 0) (some 1) (some 2) sample_opts
          2 0 sample_world = Outcome.ret (failing_init h1 conf) w1 ∧
        w1.trace = sample_world.trace ++
          [Event.image_module_init conf h1, Event.free_isulad_daemon_configs conf] ∧
        w1.heap = release_daemon_configs h1 conf ∧
        is_duplicate sample_world.heap h1 (some 0) conf.graph ∧
        is_duplicate sample_world.heap h1 (some 1) conf.state ∧
        is_duplicate sample_world.heap h1 (some 2) conf.storage_driver ∧
        conf.storage_opts = some buf ∧ buf.length = 2 ∧ conf.storage_opts_len = 2 ∧
        (∀ i, i < 2 → ∃ p q, sample_opts[i]? = some p ∧ buf[i]? = some q ∧
          is_duplicate sample_world.heap h1 p q) ∧
        conf.image_layer_check = decide ((0 : Int) = 1)) ∧
      (∃ req h1 w1,
        isulad_img_prepare_rootfs no_failure prepare_failing (some 4) (some 5) (some 6)
          sample_world =
          Outcome.ret
            (if (prepare_failing h1 req none).1 ≠ 0 then none
              else (prepare_failing h1 req none).2) w1 ∧
        w1.trace = sample_world.trace ++
          [Event.im_prepare_container_rootfs req h1, Event.free_im_prepare_request req] ∧
        w1.heap = release_prepare_request h1 req ∧
        is_duplicate sample_world.heap h1 (some 5) req.container_id ∧
        is_duplicate sample_world.heap h1 (some 4) req.image_type ∧
        is_duplicate sample_world.heap h1 (some 6) req.image_name) :=
  ⟨no_failure_ok, sample_graph_valid, sample_state_valid, sample_driver_valid, sample_opts_valid,
    sample_type_valid, sample_id_valid, sample_name_valid,
    record_lifecycle no_failure no_failure_ok failing_init prepare_failing sample_world (some 0)
      (some 1) (some 2) sample_opts 2 0 (some 4) (some 5) (some 6) sample_graph_valid
      sample_state_valid sample_driver_valid sample_opts_valid sample_type_valid sample_id_valid
      sample_name_valid⟩

/-- C8 at its failing input: the allocation of the option-pointer array fails (every other
allocation succeeds) with `len = 2`.  The run does not abort: it duplicates `opts[0]` and then
stores the duplicate through the `NULL` array pointer, which is undefined behaviour; no call of the
library has been made at that point. -/
theorem init_array_allocation_failure (stub : Heap → isulad_daemon_configs → Int) :
    init_isulad_image_module array_failure stub (some 0) (some 1) (some 2) sample_opts 2 1
        sample_world =
      Outcome.ub
        { heap := sample_heap ++ [some "/var/lib/isulad", some "/var/run/isulad",
            some "overlay2", some "overlay2.override_kernel_check=true"],
          allocs := 6,
          trace := [] } := by
  rfl

/-- C9: for a well-formed call `isulad_img_prepare_rootfs(type, id, name)` without allocation
failure, the request handed to `im_prepare_container_rootfs` has all three fields present, with
`image_type` holding the string of `type`, `container_id` the string of `id` and `image_name` the
string of `name`. -/
theorem prepare_request_fields (alloc_ok : Nat → Bool) (hok : ∀ k, alloc_ok k = true)
    (stub : Heap → im_prepare_request → Ptr → Int × Ptr) (w : World) (type id name : Ptr)
    (ht : valid_string w.heap type) (hi : valid_string w.heap id)
    (hn : valid_string w.heap name) :
    ∃ req h1 st si sn,
      (isulad_img_prepare_rootfs alloc_ok stub type id name w).world.trace =
        w.trace ++
          [Event.im_prepare_container_rootfs req h1, Event.free_im_prepare_request req] ∧
      req.image_type ≠ none ∧ req.container_id ≠ none ∧ req.image_name ≠ none ∧
      string_at w.heap type = some st ∧ string_at h1 req.image_type = some st ∧
      string_at w.heap id = some si ∧ string_at h1 req.container_id = some si ∧
      string_at w.heap name = some sn ∧ string_at h1 req.image_name = some sn := by
  obtain ⟨req, h1, w1, hrun, htr, _, _, hdi, hdt, hdn⟩ :=
    prepare_run alloc_ok hok stub w type id name ht hi hn
  have hpt := is_duplicate_present ht hdt
  have hpi := is_duplicate_present hi hdi
  have hpn := is_duplicate_present hn hdn
  have hct := is_duplicate_content hdt
  have hci := is_duplicate_content hdi
  have hcn := is_duplicate_content hdn
  obtain ⟨ta, st, rfl, htr0⟩ := ht
  obtain ⟨ia, si, rfl, hir0⟩ := hi
  obtain ⟨na, sn, rfl, hnr0⟩ := hn
  have e1 : string_at w.heap (some ta) = some st := htr0
  have e2 : string_at w.heap (some ia) = some si := hir0
  have e3 : string_at w.heap (some na) = some sn := hnr0
  refine ⟨req, h1, st, si, sn, ?_, hpt, hpi, hpn, e1, hct.trans e1, e2, hci.trans e2, e3,
    hcn.trans e3⟩
  rw [hrun]
  exact htr

/-- Witness of C9: type "oci", id "3f9c2a", name "busybox:latest". -/
theorem prepare_request_fields_witness :
    (∀ k, no_failure k = true) ∧ valid_string sample_world.heap (some 4) ∧
      valid_string sample_world.heap (some 5) ∧ valid_string sample_world.heap (some 6) ∧
      ∃ req h1 st si sn,
        (isulad_img_prepare_rootfs no_failure prepare_ok (some 4) (some 5) (some 6)
          sample_world).world.trace =
          sample_world.trace ++
            [Event.im_prepare_container_rootfs req h1, Event.free_im_prepare_request req] ∧
        req.image_type ≠ none ∧ req.container_id ≠ none ∧ req.image_name ≠ none ∧
        string_at sample_world.heap (some 4) = some st ∧
        string_at h1 req.image_type = some st ∧
        string_at sample_world.heap (some 5) = some si ∧
        string_at h1 req.container_id = some si ∧
        string_at sample_world.heap (some 6) = some sn ∧
        string_at h1 req.image_name = some sn :=
  ⟨no_failure_ok, sample_type_valid, sample_id_valid, sample_name_valid,
    prepare_request_fields no_failure no_failure_ok prepare_ok sample_world (some 4) (some 5)
      (some 6) sample_type_valid sample_id_valid sample_name_valid⟩

/-- C10: for a well-formed call of `init_isulad_image_module` without allocation failure, the
record handed to `image_module_init` has `graph`, `state` and `storage_driver` present and holding
the strings of the caller's graph, state and driver.  Every string of the record is independent of
the caller's memory: overwriting or freeing any block of the caller's memory after the record is
built leaves every string of the record as it was, and after the record is released every block of
the caller's memory reads as before the call. -/
theorem init_duplicates_strings (alloc_ok : Nat → Bool) (hok : ∀ k, alloc_ok k = true)
    (stub : Heap → isulad_daemon_configs → Int) (w : World) (graph state driver : Ptr)
    (opts : List Ptr) (len : Nat) (check : Int)
    (hg : valid_string w.heap graph) (hs : valid_string w.heap state)
    (hd : valid_string w.heap driver) (ho : valid_opts w.heap opts len) :
    ∃ conf h1 sg ss sd,
      (init_isulad_image_module alloc_ok stub graph state driver opts len check w).world.trace =
        w.trace ++ [Event.image_module_init conf h1, Event.free_isulad_daemon_configs conf] ∧
      conf.graph ≠ none ∧ conf.state ≠ none ∧ conf.storage_driver ≠ none ∧
      string_at w.heap graph = some sg ∧ string_at h1 conf.graph = some sg ∧
      string_at w.heap state = some ss ∧ string_at h1 conf.state = some ss ∧
      string_at w.heap driver = some sd ∧ string_at h1 conf.storage_driver = some sd ∧
      (∀ a s, a < w.heap.length →
        config_strings (heap_store h1 a s) conf = config_strings h1 conf) ∧
      (∀ a, a < w.heap.length →
        config_strings (heap_release h1 (some a)) conf = config_strings h1 conf) ∧
      (∀ a, a < w.heap.length →
        heap_read
          (init_isulad_image_module alloc_ok stub graph state driver opts len check
            w).world.heap a = heap_read w.heap a) := by
  obtain ⟨conf, h1, w1, hrun, htr, hheap, ⟨t, hext⟩, hdg, hds, hdd, hl,
      ⟨buf, hbuf, hblen, hhigh⟩, _⟩ :=
    init_run alloc_ok hok stub w graph state driver opts len check hg hs hd ho
  have hpg := is_duplicate_present hg hdg
  have hps := is_duplicate_present hs hds
  have hpd := is_duplicate_present hd hdd
  have hcg := is_duplicate_content hdg
  have hcs := is_duplicate_content hds
  have hcd := is_duplicate_content hdd
  have hfg := is_duplicate_fresh hdg
  have hfs := is_duplicate_fresh hds
  have hfd := is_duplicate_fresh hdd
  have hfo := options_fresh hhigh hblen
  obtain ⟨ga, sg, rfl, hgr0⟩ := hg
  obtain ⟨sa, ss, rfl, hsr0⟩ := hs
  obtain ⟨da, sd, rfl, hdr0⟩ := hd
  have e1 : string_at w.heap (some ga) = some sg := hgr0
  have e2 : string_at w.heap (some sa) = some ss := hsr0
  have e3 : string_at w.heap (some da) = some sd := hdr0
  refine ⟨conf, h1, sg, ss, sd, ?_, hpg, hps, hpd, e1, hcg.trans e1, e2, hcs.trans e2, e3,
    hcd.trans e3, ?_, ?_, ?_⟩
  · rw [hrun]
    exact htr
  · intro a s ha
    unfold config_strings
    rw [string_at_store_fresh h1 conf.graph s hfg ha,
      string_at_store_fresh h1 conf.state s hfs ha,
      string_at_store_fresh h1 conf.storage_driver s hfd ha, hbuf, hl]
    congr 1
    exact List.map_congr_left fun q hq => string_at_store_fresh h1 q s (hfo q hq) ha
  · intro a ha
    unfold config_strings
    rw [string_at_release_fresh h1 conf.graph hfg ha,
      string_at_release_fresh h1 conf.state hfs ha,
      string_at_release_fresh h1 conf.storage_driver hfd ha, hbuf, hl]
    congr 1
    exact List.map_congr_left fun q hq => string_at_release_fresh h1 q (hfo q hq) ha
  · intro a ha
    rw [hrun]
    show heap_read w1.heap a = _
    rw [hheap]
    unfold release_daemon_configs
    simp only [hbuf, hl]
    rw [heap_read_foldl_release ha _ _ hfo, heap_read_release_fresh _ _ hfd ha,
      heap_read_release_fresh _ _ hfs ha, heap_read_release_fresh _ _ hfg ha, hext]
    exact heap_read_append_lt _ _ ha

/-- Witness of C10: the sample input. -/
theorem init_duplicates_strings_witness :
    (∀ k, no_failure k = true) ∧ valid_string sample_world.heap (some 0) ∧
      valid_string sample_world.heap (some 1) ∧ valid_string sample_world.heap (some 2) ∧
      valid_opts sample_world.heap sample_opts 2 ∧
      ∃ conf h1 sg ss sd,
        (init_isulad_image_module no_failure failing_init (some 0) (some 1) (some 2) sample_opts
          2 1 sample_world).world.trace =
          sample_world.trace ++
            [Event.image_module_init conf h1, Event.free_isulad_daemon_configs conf] ∧
        conf.graph ≠ none ∧ conf.state ≠ none ∧ conf.storage_driver ≠ none ∧
        string_at sample_world.heap (some 0) = some sg ∧ string_at h1 conf.graph = some sg ∧
        string_at sample_world.heap (some 1) = some ss ∧ string_at h1 conf.state = some ss ∧
        string_at sample_world.heap (some 2) = some sd ∧
        string_at h1 conf.storage_driver = some sd ∧
        (∀ a s, a < sample_world.heap.length →
          config_strings (heap_store h1 a s) conf = config_strings h1 conf) ∧
        (∀ a, a < sample_world.heap.length →
          config_strings (heap_release h1 (some a)) conf = config_strings h1 conf) ∧
        (∀ a, a < sample_world.heap.length →
          heap_read
            (init_isulad_image_module no_failure failing_init (some 0) (some 1) (some 2)
              sample_opts 2 1 sample_world).world.heap a = heap_read sample_world.heap a) :=
  ⟨no_failure_ok, sample_graph_valid, sample_state_valid, sample_driver_valid, sample_opts_valid,
    init_duplicates_strings no_failure no_failure_ok failing_init sample_world (some 0) (some 1)
      (some 2) sample_opts 2 1 sample_graph_valid sample_state_valid sample_driver_valid
      sample_opts_valid⟩

end IsuladImg
